import Mathlib

/-!
Verification development for the LAN traffic tracker core
(file src/unnamed/part_000, package main in Go).

The Go code maintains a registry of per-device bandwidth counters
(BandwidthMonitor.devices, a map from MAC string to a DeviceStats record),
updated by UpdateStats for every captured frame, snapshotted by
GetNetworkStats, and fanned out to WebSocket subscribers.

Embedding conventions:
* All Go uint64 counters are modelled as Nat with an explicit `% U64`
  (U64 = 2 ^ 64) wherever the Go code performs uint64 arithmetic, so every
  arithmetic statement below is a statement about the program's 64-bit
  unsigned values.
* The Go map is modelled as a list of records keyed by the `mac` field,
  in insertion order (Go map iteration order is unspecified; none of the
  properties proved below depend on the order).
* time.Now() values are passed in explicitly as Nat timestamps.
* A second, heap-instrumented model (MonState below) makes Go's pointer
  structure explicit (registry entries are heap cells, a snapshot
  allocates fresh cells for its copies) in order to state the
  no-aliasing property of snapshots.
-/

/-- U64 is 2 ^ 64, the modulus of Go's uint64 arithmetic. -/
def U64 : Nat := 2 ^ 64

/-- DeviceStats mirrors the Go struct DeviceStats: per-device bandwidth
counters. Counters are uint64 (here: Nat values kept below U64). -/
structure DeviceStats where
  mac : String
  ip : String
  bytesSent : Nat
  bytesRecv : Nat
  packetsSent : Nat
  packetsRecv : Nat
  lastSeen : Nat
  hostname : String
deriving Repr, DecidableEq, Inhabited

/-- NetworkStats mirrors the Go struct NetworkStats (the snapshot wire
record). The monitorDuration field (a Go float64 wall-clock duration) is
out of scope of the claims and omitted. -/
structure NetworkStats where
  devices : List DeviceStats
  totalSent : Nat
  totalRecv : Nat
  totalPackets : Nat
  activeDevices : Nat
  timestamp : Nat
deriving Repr, DecidableEq

/-- The broadcast hardware address literal tested by UpdateStats. -/
def broadcastMAC : String := "ff:ff:ff:ff:ff:ff"

/-- The record created by UpdateStats when a MAC is seen for the first
time: the Go composite literal DeviceStats{MAC: mac, IP: ip} (all other
fields take Go zero values, in particular Hostname = ""). -/
def newDevice (mac ip : String) : DeviceStats :=
  { mac := mac, ip := ip, bytesSent := 0, bytesRecv := 0,
    packetsSent := 0, packetsRecv := 0, lastSeen := 0, hostname := "" }

/-- One side of the body of UpdateStats, applied to the record of the
side's MAC: add packetSize to the side's byte counter, increment its
packet counter (uint64 arithmetic), set LastSeen, and set IP when the
stored IP is empty and a non-empty one was supplied. `isSrc` selects the
source block (BytesSent/PacketsSent) or the destination block
(BytesRecv/PacketsRecv). -/
def applySide (isSrc : Bool) (packetSize now : Nat) (ipArg : String)
    (d : DeviceStats) : DeviceStats :=
  let d1 :=
    if isSrc then
      { d with bytesSent := (d.bytesSent + packetSize) % U64,
               packetsSent := (d.packetsSent + 1) % U64 }
    else
      { d with bytesRecv := (d.bytesRecv + packetSize) % U64,
               packetsRecv := (d.packetsRecv + 1) % U64 }
  let d2 := { d1 with lastSeen := now }
  if ipArg ≠ "" ∧ d2.ip = "" then { d2 with ip := ipArg } else d2

/-- One of the two symmetric blocks of UpdateStats: skip the side when
its MAC is empty or the broadcast address; otherwise create the record
if absent and update it via applySide. -/
def updateSide (devs : List DeviceStats) (mac ipArg : String)
    (packetSize now : Nat) (isSrc : Bool) : List DeviceStats :=
  if mac = "" ∨ mac = broadcastMAC then devs
  else
    let devs1 :=
      if (devs.find? fun d => d.mac == mac).isSome then devs
      else devs ++ [newDevice mac ipArg]
    devs1.map fun d =>
      if d.mac == mac then applySide isSrc packetSize now ipArg d else d

/-- Frame bundles the arguments of one UpdateStats call (plus the
time.Now() value observed during the call). -/
structure Frame where
  srcMAC : String
  dstMAC : String
  srcIP : String
  dstIP : String
  packetSize : Nat
  now : Nat
deriving Repr, DecidableEq

/-- UpdateStats from the Go source: the source block followed by the
destination block. -/
def UpdateStats (devs : List DeviceStats) (f : Frame) : List DeviceStats :=
  updateSide (updateSide devs f.srcMAC f.srcIP f.packetSize f.now true)
    f.dstMAC f.dstIP f.packetSize f.now false

/-- applyFrames folds a finite sequence of UpdateStats calls over a
registry state. -/
def applyFrames (devs : List DeviceStats) (fs : List Frame) : List DeviceStats :=
  fs.foldl UpdateStats devs

/-- bandKey is the sort key of GetNetworkStats: BytesSent + BytesRecv
computed in uint64 arithmetic (the Go addition of two uint64 wraps). -/
def bandKey (d : DeviceStats) : Nat := (d.bytesSent + d.bytesRecv) % U64

/-- GetNetworkStats from the Go source: copy every record, accumulate
the three uint64 totals in one pass, sort the copies by descending
bandKey (sort.Slice with less = totalI over totalJ), and package the
snapshot. The record copies are by-value in Go, so in this pure model
the copied list is the registry list itself. -/
def GetNetworkStats (devs : List DeviceStats) (now : Nat) : NetworkStats :=
  let totals := devs.foldl
    (fun acc d =>
      ((acc.1 + d.bytesSent) % U64,
       (acc.2.1 + d.bytesRecv) % U64,
       (acc.2.2 + (d.packetsSent + d.packetsRecv) % U64) % U64))
    ((0, 0, 0) : Nat × Nat × Nat)
  { devices := devs.mergeSort fun a b => decide (bandKey b ≤ bandKey a),
    totalSent := totals.1,
    totalRecv := totals.2.1,
    totalPackets := totals.2.2,
    activeDevices := devs.length,
    timestamp := now }

/-- getDevice is the registry lookup performed by handleGetDevice:
device, exists := bm.devices[mac]. -/
def getDevice (devs : List DeviceStats) (mac : String) : Option DeviceStats :=
  devs.find? fun d => d.mac == mac

/-- handleGetDevice from the Go source, modelled at the level of the
HTTP response it produces: a 404 "Device not found" error when the MAC
is absent, otherwise the JSON encoding of the record, which serializes
the record's field values at call time. -/
def handleGetDevice (devs : List DeviceStats) (mac : String) :
    Except String DeviceStats :=
  match getDevice devs mac with
  | none => Except.error "Device not found"
  | some d => Except.ok d

/-- Capacity of the broadcast channel created by NewBandwidthMonitor:
make(chan NetworkStats pointer, 256). -/
def broadcastCapacity : Nat := 256

/-- BroadcastQueue models the buffered broadcast channel: its pending
items, oldest first. -/
structure BroadcastQueue where
  items : List NetworkStats
deriving DecidableEq

/-- tryPush models the non-blocking send in the ticker goroutine
(select with a default branch): a buffered channel send succeeds
exactly when fewer than broadcastCapacity items are pending, and the
default branch drops the snapshot otherwise. -/
def tryPush (q : BroadcastQueue) (s : NetworkStats) : Bool × BroadcastQueue :=
  if q.items.length < broadcastCapacity then (true, ⟨q.items ++ [s]⟩)
  else (false, q)

/-- Client models one WebSocket subscriber during one fan-out round:
its identity and whether WriteJSON of this snapshot fails for it. -/
structure Client where
  id : Nat
  fails : Bool
deriving Repr, DecidableEq

/-- acquireWrite models acquiring the write side of a sync.RWMutex in a
single goroutine that may already hold read locks: Lock() waits until
every reader releases, so it can only ever return when no read lock is
held; with `readers` read locks held by the acquiring goroutine itself
it blocks forever (modelled as none). -/
def acquireWrite (readers : Nat) : Option Unit :=
  if readers = 0 then some () else none

/-- deliverAll is the inner loop of broadcastStats over the client set,
run while the goroutine holds `readers` read locks on clientsMu. For
each client it attempts WriteJSON; on failure it closes the connection
and then calls clientsMu.Lock() to delete the client — which must
first be acquired via acquireWrite. It returns the deliveries made and
the surviving client set, or none if the goroutine blocks forever. -/
def deliverAll (stats : NetworkStats) (readers : Nat) :
    List Client → List Client → List (Nat × NetworkStats) →
    Option (List (Nat × NetworkStats) × List Client)
  | [], kept, delivered => some (delivered, kept)
  | c :: rest, kept, delivered =>
    if c.fails then
      match acquireWrite readers with
      | none => none
      | some _ => deliverAll stats readers rest kept delivered
    else
      deliverAll stats readers rest (kept ++ [c]) (delivered ++ [(c.id, stats)])

/-- broadcastStats from the Go source, one round of the fan-out loop
for one popped snapshot: it takes clientsMu.RLock() (one read lock,
held by this goroutine for the whole loop) and then attempts delivery
to every client. -/
def broadcastStats (clients : List Client) (stats : NetworkStats) :
    Option (List (Nat × NetworkStats) × List Client) :=
  deliverAll stats 1 clients [] []

/-!
Heap-instrumented model. In the Go source bm.devices is a map from MAC
to a DeviceStats pointer, and a snapshot copies each record into a
freshly allocated cell (devCopy is a value copy, the snapshot stores a
pointer to the copy). To state that a snapshot never aliases
registry-owned memory, MonState makes the pointers explicit: the heap
is a list of cells addressed by index, the registry maps MACs to cell
indices, and the snapshot holds the indices of its freshly allocated
copies. UpdateStats mutates registry cells in place. -/

/-- MonState: registry map (MAC to heap index) and the heap of
DeviceStats cells. -/
structure MonState where
  devices : List (String × Nat)
  heap : List DeviceStats
deriving Repr, DecidableEq

/-- The state of a freshly created BandwidthMonitor: empty map, no
allocated records. -/
def initState : MonState := ⟨[], []⟩

/-- lookupPtr is the map read bm.devices[key]: the heap index of the
record for a MAC, if any. -/
def lookupPtr (m : List (String × Nat)) (mac : String) : Option Nat :=
  (m.find? fun kp => kp.1 == mac).map (fun kp => kp.2)

/-- updateSideH: one block of UpdateStats on the heap model. A missing
key allocates a fresh cell at the end of the heap; the block then
mutates the record's cell in place via applySide. -/
def updateSideH (s : MonState) (mac ipArg : String)
    (packetSize now : Nat) (isSrc : Bool) : MonState :=
  if mac = "" ∨ mac = broadcastMAC then s
  else
    match lookupPtr s.devices mac with
    | some p =>
      ⟨s.devices,
       s.heap.set p (applySide isSrc packetSize now ipArg (s.heap.getD p default))⟩
    | none =>
      let p := s.heap.length
      let heap1 := s.heap ++ [newDevice mac ipArg]
      ⟨s.devices ++ [(mac, p)],
       heap1.set p (applySide isSrc packetSize now ipArg (heap1.getD p default))⟩

/-- UpdateStatsH: UpdateStats on the heap model, source block then
destination block. -/
def UpdateStatsH (s : MonState) (f : Frame) : MonState :=
  updateSideH (updateSideH s f.srcMAC f.srcIP f.packetSize f.now true)
    f.dstMAC f.dstIP f.packetSize f.now false

/-- applyFramesH folds a sequence of UpdateStats calls over a heap
state. -/
def applyFramesH (s : MonState) (fs : List Frame) : MonState :=
  fs.foldl UpdateStatsH s

/-- SnapshotH: the snapshot as the heap model sees it. Its devicePtrs
are the heap indices of the copies it allocated (in Go: the pointers
stored in NetworkStats.Devices); the aggregate fields are plain
values. -/
structure SnapshotH where
  devicePtrs : List Nat
  totalSent : Nat
  totalRecv : Nat
  totalPackets : Nat
  activeDevices : Nat
  timestamp : Nat
deriving Repr, DecidableEq

/-- GetNetworkStatsH: GetNetworkStats on the heap model. It reads every
registry record through its pointer, allocates a fresh cell for each
copy (extending the heap), accumulates the uint64 totals, and sorts the
copy pointers by descending bandKey of the pointed-to cells. -/
def GetNetworkStatsH (s : MonState) (now : Nat) : SnapshotH × MonState :=
  let vals := s.devices.map fun kp => s.heap.getD kp.2 default
  let base := s.heap.length
  let heap1 := s.heap ++ vals
  let ptrs := (List.range vals.length).map (fun i => i + base)
  let sorted := ptrs.mergeSort fun p q =>
    decide (bandKey (heap1.getD q default) ≤ bandKey (heap1.getD p default))
  let totals := vals.foldl
    (fun acc d =>
      ((acc.1 + d.bytesSent) % U64,
       (acc.2.1 + d.bytesRecv) % U64,
       (acc.2.2 + (d.packetsSent + d.packetsRecv) % U64) % U64))
    ((0, 0, 0) : Nat × Nat × Nat)
  (⟨sorted, totals.1, totals.2.1, totals.2.2, vals.length, now⟩,
   ⟨s.devices, heap1⟩)

/-- readSnapshotDevices dereferences a snapshot's device pointers in a
given heap: the device entries a consumer of the snapshot observes. -/
def readSnapshotDevices (heap : List DeviceStats) (snap : SnapshotH) :
    List DeviceStats :=
  snap.devicePtrs.map fun p => heap.getD p default

/-- Observed bytesSent of a MAC in a registry state (0 when absent). -/
def bytesSentOf (devs : List DeviceStats) (m : String) : Nat :=
  ((getDevice devs m).map DeviceStats.bytesSent).getD 0

/-- Observed bytesRecv of a MAC in a registry state (0 when absent). -/
def bytesRecvOf (devs : List DeviceStats) (m : String) : Nat :=
  ((getDevice devs m).map DeviceStats.bytesRecv).getD 0

/-- Observed packetsSent of a MAC in a registry state (0 when absent). -/
def packetsSentOf (devs : List DeviceStats) (m : String) : Nat :=
  ((getDevice devs m).map DeviceStats.packetsSent).getD 0

/-- Observed packetsRecv of a MAC in a registry state (0 when absent). -/
def packetsRecvOf (devs : List DeviceStats) (m : String) : Nat :=
  ((getDevice devs m).map DeviceStats.packetsRecv).getD 0

/-- Observed IP of a MAC in a registry state (empty when absent). -/
def ipOf (devs : List DeviceStats) (m : String) : String :=
  ((getDevice devs m).map DeviceStats.ip).getD ""

theorem applySide_mac (b : Bool) (sz now : Nat) (ip : String) (d : DeviceStats) :
    (applySide b sz now ip d).mac = d.mac := by
  cases b <;> simp only [applySide, Bool.false_eq_true, reduceIte] <;>
    split <;> rfl

theorem applySide_hostname (b : Bool) (sz now : Nat) (ip : String) (d : DeviceStats) :
    (applySide b sz now ip d).hostname = d.hostname := by
  cases b <;> simp only [applySide, Bool.false_eq_true, reduceIte] <;>
    split <;> rfl

theorem applySide_bytesSent (b : Bool) (sz now : Nat) (ip : String) (d : DeviceStats) :
    (applySide b sz now ip d).bytesSent =
      if b then (d.bytesSent + sz) % U64 else d.bytesSent := by
  cases b <;> simp only [applySide, Bool.false_eq_true, reduceIte] <;>
    split <;> rfl

theorem applySide_bytesRecv (b : Bool) (sz now : Nat) (ip : String) (d : DeviceStats) :
    (applySide b sz now ip d).bytesRecv =
      if b then d.bytesRecv else (d.bytesRecv + sz) % U64 := by
  cases b <;> simp only [applySide, Bool.false_eq_true, reduceIte] <;>
    split <;> rfl

theorem applySide_packetsSent (b : Bool) (sz now : Nat) (ip : String) (d : DeviceStats) :
    (applySide b sz now ip d).packetsSent =
      if b then (d.packetsSent + 1) % U64 else d.packetsSent := by
  cases b <;> simp only [applySide, Bool.false_eq_true, reduceIte] <;>
    split <;> rfl

theorem applySide_packetsRecv (b : Bool) (sz now : Nat) (ip : String) (d : DeviceStats) :
    (applySide b sz now ip d).packetsRecv =
      if b then d.packetsRecv else (d.packetsRecv + 1) % U64 := by
  cases b <;> simp only [applySide, Bool.false_eq_true, reduceIte] <;>
    split <;> rfl

theorem applySide_ip (b : Bool) (sz now : Nat) (ip : String) (d : DeviceStats) :
    (applySide b sz now ip d).ip =
      if ip ≠ "" ∧ d.ip = "" then ip else d.ip := by
  cases b <;> by_cases h1 : ip = "" <;> by_cases h2 : d.ip = "" <;>
    simp [applySide, h1, h2]

/-- find? only looks at the value of the predicate at each element. -/
theorem find?_ext {α : Type} (p q : α → Bool) (h : ∀ a, p a = q a)
    (l : List α) : l.find? p = l.find? q := by
  induction l with
  | nil => rfl
  | cons a t ih =>
    rw [List.find?, List.find?, h a]
    cases q a <;> simp [ih]

/-- Looking up a MAC after updating (only) the records of some MAC via
a mac-preserving function commutes with the lookup. -/
theorem getDevice_map_upd (devs : List DeviceStats) (mac m : String)
    (g : DeviceStats → DeviceStats) (hg : ∀ d, (g d).mac = d.mac) :
    getDevice (devs.map fun d => if d.mac == mac then g d else d) m
    = (getDevice devs m).map fun d => if d.mac == mac then g d else d := by
  unfold getDevice
  rw [List.find?_map]
  apply congrArg (Option.map _)
  apply find?_ext
  intro d
  by_cases h : d.mac = mac <;> simp [Function.comp, h, hg]

/-- updateSide leaves the record of every other MAC unchanged. -/
theorem getDevice_updateSide_ne (devs : List DeviceStats) (mac ip : String)
    (sz now : Nat) (b : Bool) (m : String) (hm : ¬ m = mac) :
    getDevice (updateSide devs mac ip sz now b) m = getDevice devs m := by
  unfold updateSide
  by_cases hg : mac = "" ∨ mac = broadcastMAC
  · rw [if_pos hg]
  · rw [if_neg hg, getDevice_map_upd _ _ _ _ (applySide_mac b sz now ip)]
    have happ : getDevice
        (if (devs.find? fun d => d.mac == mac).isSome then devs
         else devs ++ [newDevice mac ip]) m = getDevice devs m := by
      split
      · rfl
      · unfold getDevice
        rw [List.find?_append]
        have hmm : (mac == m) = false :=
          beq_eq_false_iff_ne.mpr fun h => hm h.symm
        have hnone : [newDevice mac ip].find? (fun d => d.mac == m) = none := by
          simp [List.find?, newDevice, hmm]
        rw [hnone, Option.or_none]
    rw [happ]
    cases hfd : getDevice devs m with
    | none => rfl
    | some d =>
      have hd : d.mac = m := by
        have := List.find?_some hfd
        simpa using this
      simp only [Option.map_some']
      rw [if_neg]
      simp [hd, hm]

/-- updateSide on a non-empty, non-broadcast MAC makes that MAC's
record applySide applied to the previous record, or to a fresh
newDevice record when the MAC was absent. -/
theorem getDevice_updateSide_self (devs : List DeviceStats) (mac ip : String)
    (sz now : Nat) (b : Bool) (hg : ¬ (mac = "" ∨ mac = broadcastMAC)) :
    getDevice (updateSide devs mac ip sz now b) mac
    = some (applySide b sz now ip
        ((getDevice devs mac).getD (newDevice mac ip))) := by
  unfold updateSide
  rw [if_neg hg, getDevice_map_upd _ _ _ _ (applySide_mac b sz now ip)]
  cases hfd : getDevice devs mac with
  | some d =>
    have hsome : (devs.find? fun d => d.mac == mac).isSome := by
      unfold getDevice at hfd
      simp [hfd]
    rw [if_pos hsome, hfd]
    have hd : d.mac = mac := by
      have := List.find?_some hfd
      simpa using this
    simp [hd]
  | none =>
    have hnone : ¬ (devs.find? fun d => d.mac == mac).isSome := by
      unfold getDevice at hfd
      simp [hfd]
    rw [if_neg hnone]
    unfold getDevice at hfd ⊢
    rw [List.find?_append, hfd, Option.none_or]
    have : [newDevice mac ip].find? (fun d => d.mac == mac) = some (newDevice mac ip) := by
      simp [List.find?, newDevice]
    rw [this]
    simp [newDevice]

theorem U64_pos : 0 < U64 := by
  unfold U64
  positivity

/-- Generic shape of the per-side step: how updateSide transforms the
observed value of one projected field of one MAC's record, given how
applySide transforms that field. -/
theorem projOf_updateSide {α : Type} (proj : DeviceStats → α) (dflt : α)
    (F : α → α) (mac ip : String) (sz now : Nat) (b : Bool)
    (devs : List DeviceStats) (m : String)
    (happ : ∀ d, proj (applySide b sz now ip d) = F (proj d))
    (hnewF : F (proj (newDevice mac ip)) = F dflt)
    (hm : ¬ (m = "" ∨ m = broadcastMAC)) :
    ((getDevice (updateSide devs mac ip sz now b) m).map proj).getD dflt
    = if mac = m then F (((getDevice devs m).map proj).getD dflt)
      else ((getDevice devs m).map proj).getD dflt := by
  by_cases hc : mac = m
  · subst hc
    rw [getDevice_updateSide_self devs mac ip sz now b hm, if_pos rfl]
    cases hfd : getDevice devs mac with
    | none => simp [happ, hnewF]
    | some d => simp [happ]
  · rw [getDevice_updateSide_ne devs mac ip sz now b m fun h => hc h.symm,
      if_neg hc]

theorem bytesSentOf_updateSide (devs : List DeviceStats) (mac ip : String)
    (sz now : Nat) (b : Bool) (m : String)
    (hm : ¬ (m = "" ∨ m = broadcastMAC)) :
    bytesSentOf (updateSide devs mac ip sz now b) m
    = if mac = m
      then (if b then (bytesSentOf devs m + sz) % U64 else bytesSentOf devs m)
      else bytesSentOf devs m := by
  unfold bytesSentOf
  exact projOf_updateSide DeviceStats.bytesSent 0
    (fun v => if b then (v + sz) % U64 else v) mac ip sz now b devs m
    (applySide_bytesSent b sz now ip) rfl hm

theorem bytesRecvOf_updateSide (devs : List DeviceStats) (mac ip : String)
    (sz now : Nat) (b : Bool) (m : String)
    (hm : ¬ (m = "" ∨ m = broadcastMAC)) :
    bytesRecvOf (updateSide devs mac ip sz now b) m
    = if mac = m
      then (if b then bytesRecvOf devs m else (bytesRecvOf devs m + sz) % U64)
      else bytesRecvOf devs m := by
  unfold bytesRecvOf
  exact projOf_updateSide DeviceStats.bytesRecv 0
    (fun v => if b then v else (v + sz) % U64) mac ip sz now b devs m
    (applySide_bytesRecv b sz now ip) rfl hm

theorem packetsSentOf_updateSide (devs : List DeviceStats) (mac ip : String)
    (sz now : Nat) (b : Bool) (m : String)
    (hm : ¬ (m = "" ∨ m = broadcastMAC)) :
    packetsSentOf (updateSide devs mac ip sz now b) m
    = if mac = m
      then (if b then (packetsSentOf devs m + 1) % U64 else packetsSentOf devs m)
      else packetsSentOf devs m := by
  unfold packetsSentOf
  exact projOf_updateSide DeviceStats.packetsSent 0
    (fun v => if b then (v + 1) % U64 else v) mac ip sz now b devs m
    (applySide_packetsSent b sz now ip) rfl hm

theorem packetsRecvOf_updateSide (devs : List DeviceStats) (mac ip : String)
    (sz now : Nat) (b : Bool) (m : String)
    (hm : ¬ (m = "" ∨ m = broadcastMAC)) :
    packetsRecvOf (updateSide devs mac ip sz now b) m
    = if mac = m
      then (if b then packetsRecvOf devs m else (packetsRecvOf devs m + 1) % U64)
      else packetsRecvOf devs m := by
  unfold packetsRecvOf
  exact projOf_updateSide DeviceStats.packetsRecv 0
    (fun v => if b then v else (v + 1) % U64) mac ip sz now b devs m
    (applySide_packetsRecv b sz now ip) rfl hm

theorem ipOf_updateSide (devs : List DeviceStats) (mac ip : String)
    (sz now : Nat) (b : Bool) (m : String)
    (hm : ¬ (m = "" ∨ m = broadcastMAC)) :
    ipOf (updateSide devs mac ip sz now b) m
    = if mac = m
      then (if ip ≠ "" ∧ ipOf devs m = "" then ip else ipOf devs m)
      else ipOf devs m := by
  unfold ipOf
  exact projOf_updateSide DeviceStats.ip ""
    (fun v => if ip ≠ "" ∧ v = "" then ip else v) mac ip sz now b devs m
    (applySide_ip b sz now ip)
    (by by_cases h : ip = "" <;> simp [newDevice, h]) hm

/-- Effect of one full UpdateStats call on the four observed counters of
a fixed non-empty, non-broadcast MAC. -/
theorem counters_UpdateStats (devs : List DeviceStats) (f : Frame) (m : String)
    (hm : ¬ (m = "" ∨ m = broadcastMAC)) :
    bytesSentOf (UpdateStats devs f) m
      = (if f.srcMAC = m then (bytesSentOf devs m + f.packetSize) % U64
         else bytesSentOf devs m)
    ∧ packetsSentOf (UpdateStats devs f) m
      = (if f.srcMAC = m then (packetsSentOf devs m + 1) % U64
         else packetsSentOf devs m)
    ∧ bytesRecvOf (UpdateStats devs f) m
      = (if f.dstMAC = m then (bytesRecvOf devs m + f.packetSize) % U64
         else bytesRecvOf devs m)
    ∧ packetsRecvOf (UpdateStats devs f) m
      = (if f.dstMAC = m then (packetsRecvOf devs m + 1) % U64
         else packetsRecvOf devs m) := by
  unfold UpdateStats
  refine ⟨?_, ?_, ?_, ?_⟩
  · rw [bytesSentOf_updateSide _ _ _ _ _ _ _ hm]
    simp only [Bool.false_eq_true, if_false, ite_self]
    rw [bytesSentOf_updateSide _ _ _ _ _ _ _ hm]
    simp
  · rw [packetsSentOf_updateSide _ _ _ _ _ _ _ hm]
    simp only [Bool.false_eq_true, if_false, ite_self]
    rw [packetsSentOf_updateSide _ _ _ _ _ _ _ hm]
    simp
  · rw [bytesRecvOf_updateSide _ _ _ _ _ _ _ hm]
    simp only [Bool.false_eq_true, if_false]
    rw [bytesRecvOf_updateSide _ _ _ _ _ _ _ hm]
    simp only [if_true, ite_self]
  · rw [packetsRecvOf_updateSide _ _ _ _ _ _ _ hm]
    simp only [Bool.false_eq_true, if_false]
    rw [packetsRecvOf_updateSide _ _ _ _ _ _ _ hm]
    simp only [if_true, ite_self]

/-- Trace sum: total frameSize over the calls in which m was the source
identity. -/
def sentBytes (m : String) (fs : List Frame) : Nat :=
  ((fs.filter fun f => f.srcMAC == m).map Frame.packetSize).sum

/-- Trace count: number of calls in which m was the source identity. -/
def sentCount (m : String) (fs : List Frame) : Nat :=
  (fs.filter fun f => f.srcMAC == m).length

/-- Trace sum: total frameSize over the calls in which m was the
destination identity. -/
def recvBytes (m : String) (fs : List Frame) : Nat :=
  ((fs.filter fun f => f.dstMAC == m).map Frame.packetSize).sum

/-- Trace count: number of calls in which m was the destination
identity. -/
def recvCount (m : String) (fs : List Frame) : Nat :=
  (fs.filter fun f => f.dstMAC == m).length

theorem sentBytes_cons (m : String) (f : Frame) (fs : List Frame) :
    sentBytes m (f :: fs)
    = (if f.srcMAC = m then f.packetSize else 0) + sentBytes m fs := by
  by_cases h : f.srcMAC = m <;> simp [sentBytes, h]

theorem sentCount_cons (m : String) (f : Frame) (fs : List Frame) :
    sentCount m (f :: fs)
    = (if f.srcMAC = m then 1 else 0) + sentCount m fs := by
  by_cases h : f.srcMAC = m <;> simp [sentCount, h, Nat.add_comm]

theorem recvBytes_cons (m : String) (f : Frame) (fs : List Frame) :
    recvBytes m (f :: fs)
    = (if f.dstMAC = m then f.packetSize else 0) + recvBytes m fs := by
  by_cases h : f.dstMAC = m <;> simp [recvBytes, h]

theorem recvCount_cons (m : String) (f : Frame) (fs : List Frame) :
    recvCount m (f :: fs)
    = (if f.dstMAC = m then 1 else 0) + recvCount m fs := by
  by_cases h : f.dstMAC = m <;> simp [recvCount, h, Nat.add_comm]

/-- One step of the modular trace argument: the counter after the call
is congruent mod U64 to the counter before plus the call's
contribution. -/
theorem step_modEq {v s : Nat} (c : Prop) [Decidable c] :
    (if c then (v + s) % U64 else v) ≡ v + (if c then s else 0) [MOD U64] := by
  by_cases h : c
  · simp only [if_pos h]
    exact Nat.mod_modEq (v + s) U64
  · simp only [if_neg h, Nat.add_zero]
    exact Nat.ModEq.refl _

/-- The four observed counters of a MAC after a sequence of UpdateStats
calls, congruent mod U64 to their start values plus the trace sums. -/
theorem counters_applyFrames (fs : List Frame) (devs : List DeviceStats)
    (m : String) (hm : ¬ (m = "" ∨ m = broadcastMAC)) :
    bytesSentOf (applyFrames devs fs) m
        ≡ bytesSentOf devs m + sentBytes m fs [MOD U64]
    ∧ packetsSentOf (applyFrames devs fs) m
        ≡ packetsSentOf devs m + sentCount m fs [MOD U64]
    ∧ bytesRecvOf (applyFrames devs fs) m
        ≡ bytesRecvOf devs m + recvBytes m fs [MOD U64]
    ∧ packetsRecvOf (applyFrames devs fs) m
        ≡ packetsRecvOf devs m + recvCount m fs [MOD U64] := by
  induction fs generalizing devs with
  | nil =>
    simp [applyFrames, sentBytes, sentCount, recvBytes, recvCount]
    exact ⟨Nat.ModEq.refl _, Nat.ModEq.refl _, Nat.ModEq.refl _, Nat.ModEq.refl _⟩
  | cons f fs ih =>
    have hfold : applyFrames devs (f :: fs) = applyFrames (UpdateStats devs f) fs := rfl
    obtain ⟨ih1, ih2, ih3, ih4⟩ := ih (UpdateStats devs f)
    obtain ⟨st1, st2, st3, st4⟩ := counters_UpdateStats devs f m hm
    rw [hfold]
    refine ⟨?_, ?_, ?_, ?_⟩
    · rw [sentBytes_cons, ← Nat.add_assoc,
        Nat.add_comm (bytesSentOf devs m) (if f.srcMAC = m then f.packetSize else 0),
        Nat.add_comm (if f.srcMAC = m then f.packetSize else 0) (bytesSentOf devs m)]
      calc bytesSentOf (applyFrames (UpdateStats devs f) fs) m
          ≡ bytesSentOf (UpdateStats devs f) m + sentBytes m fs [MOD U64] := ih1
        _ ≡ (bytesSentOf devs m + (if f.srcMAC = m then f.packetSize else 0))
              + sentBytes m fs [MOD U64] := by
            apply Nat.ModEq.add_right
            rw [st1]
            exact step_modEq _
    · rw [sentCount_cons, ← Nat.add_assoc,
        Nat.add_comm (packetsSentOf devs m) (if f.srcMAC = m then 1 else 0),
        Nat.add_comm (if f.srcMAC = m then 1 else 0) (packetsSentOf devs m)]
      calc packetsSentOf (applyFrames (UpdateStats devs f) fs) m
          ≡ packetsSentOf (UpdateStats devs f) m + sentCount m fs [MOD U64] := ih2
        _ ≡ (packetsSentOf devs m + (if f.srcMAC = m then 1 else 0))
              + sentCount m fs [MOD U64] := by
            apply Nat.ModEq.add_right
            rw [st2]
            exact step_modEq _
    · rw [recvBytes_cons, ← Nat.add_assoc,
        Nat.add_comm (bytesRecvOf devs m) (if f.dstMAC = m then f.packetSize else 0),
        Nat.add_comm (if f.dstMAC = m then f.packetSize else 0) (bytesRecvOf devs m)]
      calc bytesRecvOf (applyFrames (UpdateStats devs f) fs) m
          ≡ bytesRecvOf (UpdateStats devs f) m + recvBytes m fs [MOD U64] := ih3
        _ ≡ (bytesRecvOf devs m + (if f.dstMAC = m then f.packetSize else 0))
              + recvBytes m fs [MOD U64] := by
            apply Nat.ModEq.add_right
            rw [st3]
            exact step_modEq _
    · rw [recvCount_cons, ← Nat.add_assoc,
        Nat.add_comm (packetsRecvOf devs m) (if f.dstMAC = m then 1 else 0),
        Nat.add_comm (if f.dstMAC = m then 1 else 0) (packetsRecvOf devs m)]
      calc packetsRecvOf (applyFrames (UpdateStats devs f) fs) m
          ≡ packetsRecvOf (UpdateStats devs f) m + recvCount m fs [MOD U64] := ih4
        _ ≡ (packetsRecvOf devs m + (if f.dstMAC = m then 1 else 0))
              + recvCount m fs [MOD U64] := by
            apply Nat.ModEq.add_right
            rw [st4]
            exact step_modEq _

/-- All four counters of a record are uint64 values (below U64). -/
def boundedDev (d : DeviceStats) : Prop :=
  d.bytesSent < U64 ∧ d.bytesRecv < U64 ∧ d.packetsSent < U64 ∧ d.packetsRecv < U64

theorem boundedDev_newDevice (mac ip : String) : boundedDev (newDevice mac ip) :=
  ⟨U64_pos, U64_pos, U64_pos, U64_pos⟩

theorem boundedDev_applySide (b : Bool) (sz now : Nat) (ip : String)
    (d : DeviceStats) (h : boundedDev d) :
    boundedDev (applySide b sz now ip d) := by
  obtain ⟨h1, h2, h3, h4⟩ := h
  refine ⟨?_, ?_, ?_, ?_⟩
  · rw [applySide_bytesSent]
    cases b
    · exact h1
    · exact Nat.mod_lt _ U64_pos
  · rw [applySide_bytesRecv]
    cases b
    · exact Nat.mod_lt _ U64_pos
    · exact h2
  · rw [applySide_packetsSent]
    cases b
    · exact h3
    · exact Nat.mod_lt _ U64_pos
  · rw [applySide_packetsRecv]
    cases b
    · exact Nat.mod_lt _ U64_pos
    · exact h4

theorem bounded_updateSide (devs : List DeviceStats) (mac ip : String)
    (sz now : Nat) (b : Bool) (h : ∀ d ∈ devs, boundedDev d) :
    ∀ d ∈ updateSide devs mac ip sz now b, boundedDev d := by
  intro d' hd'
  unfold updateSide at hd'
  split at hd'
  · exact h d' hd'
  · obtain ⟨d, hd, hud⟩ := List.mem_map.mp hd'
    have hdev : boundedDev d := by
      split at hd
      · exact h d hd
      · rcases List.mem_append.mp hd with hl | hr
        · exact h d hl
        · rw [List.mem_singleton.mp hr]
          exact boundedDev_newDevice mac ip
    rw [← hud]
    split
    · exact boundedDev_applySide b sz now ip d hdev
    · exact hdev

theorem bounded_UpdateStats (devs : List DeviceStats) (f : Frame)
    (h : ∀ d ∈ devs, boundedDev d) :
    ∀ d ∈ UpdateStats devs f, boundedDev d := by
  unfold UpdateStats
  exact bounded_updateSide _ _ _ _ _ _ (bounded_updateSide _ _ _ _ _ _ h)

theorem bounded_applyFrames (fs : List Frame) (devs : List DeviceStats)
    (h : ∀ d ∈ devs, boundedDev d) :
    ∀ d ∈ applyFrames devs fs, boundedDev d := by
  induction fs generalizing devs with
  | nil => exact h
  | cons f fs ih => exact ih (UpdateStats devs f) (bounded_UpdateStats devs f h)

theorem bytesSentOf_lt (devs : List DeviceStats) (m : String)
    (h : ∀ d ∈ devs, boundedDev d) : bytesSentOf devs m < U64 := by
  unfold bytesSentOf
  cases hfd : getDevice devs m with
  | none => exact U64_pos
  | some d => exact (h d (List.mem_of_find?_eq_some hfd)).1

theorem bytesRecvOf_lt (devs : List DeviceStats) (m : String)
    (h : ∀ d ∈ devs, boundedDev d) : bytesRecvOf devs m < U64 := by
  unfold bytesRecvOf
  cases hfd : getDevice devs m with
  | none => exact U64_pos
  | some d => exact (h d (List.mem_of_find?_eq_some hfd)).2.1

theorem packetsSentOf_lt (devs : List DeviceStats) (m : String)
    (h : ∀ d ∈ devs, boundedDev d) : packetsSentOf devs m < U64 := by
  unfold packetsSentOf
  cases hfd : getDevice devs m with
  | none => exact U64_pos
  | some d => exact (h d (List.mem_of_find?_eq_some hfd)).2.2.1

theorem packetsRecvOf_lt (devs : List DeviceStats) (m : String)
    (h : ∀ d ∈ devs, boundedDev d) : packetsRecvOf devs m < U64 := by
  unfold packetsRecvOf
  cases hfd : getDevice devs m with
  | none => exact U64_pos
  | some d => exact (h d (List.mem_of_find?_eq_some hfd)).2.2.2

theorem eq_mod_of_modEq_of_lt {a b n : Nat} (h : a ≡ b [MOD n]) (ha : a < n) :
    a = b % n := by
  have h' : a % n = b % n := h
  rw [← h', Nat.mod_eq_of_lt ha]

/-- C1. For every finite sequence of UpdateStats calls starting from an
empty registry, a non-empty, non-broadcast identity's bytesSent equals
the sum of packetSize over exactly the calls in which it was the source
identity, and packetsSent the number of such calls; bytesReceived and
packetsReceived symmetrically over the calls in which it was the
destination identity. Counters are uint64, so the sums are taken in
64-bit arithmetic (reduced mod U64); for any trace whose totals stay
below 2 ^ 64 the reduction is the identity. -/
theorem attribute_counters_from_trace (fs : List Frame) (m : String)
    (hm : m ≠ "" ∧ m ≠ broadcastMAC) :
    bytesSentOf (applyFrames [] fs) m = sentBytes m fs % U64
    ∧ packetsSentOf (applyFrames [] fs) m = sentCount m fs % U64
    ∧ bytesRecvOf (applyFrames [] fs) m = recvBytes m fs % U64
    ∧ packetsRecvOf (applyFrames [] fs) m = recvCount m fs % U64 := by
  have hm' : ¬ (m = "" ∨ m = broadcastMAC) := not_or.mpr ⟨hm.1, hm.2⟩
  have hbnd : ∀ d ∈ applyFrames [] fs, boundedDev d :=
    bounded_applyFrames fs [] (by intro d hd; cases hd)
  obtain ⟨h1, h2, h3, h4⟩ := counters_applyFrames fs [] m hm'
  have z1 : bytesSentOf ([] : List DeviceStats) m = 0 := rfl
  have z2 : packetsSentOf ([] : List DeviceStats) m = 0 := rfl
  have z3 : bytesRecvOf ([] : List DeviceStats) m = 0 := rfl
  have z4 : packetsRecvOf ([] : List DeviceStats) m = 0 := rfl
  rw [z1, Nat.zero_add] at h1
  rw [z2, Nat.zero_add] at h2
  rw [z3, Nat.zero_add] at h3
  rw [z4, Nat.zero_add] at h4
  exact ⟨eq_mod_of_modEq_of_lt h1 (bytesSentOf_lt _ m hbnd),
    eq_mod_of_modEq_of_lt h2 (packetsSentOf_lt _ m hbnd),
    eq_mod_of_modEq_of_lt h3 (bytesRecvOf_lt _ m hbnd),
    eq_mod_of_modEq_of_lt h4 (packetsRecvOf_lt _ m hbnd)⟩

/-- Scenario A of the spec: (srcA, dstB, 64), (srcB, dstA, 1500),
(srcA, broadcast, 128). -/
def scenarioA : List Frame :=
  [⟨"aa", "bb", "", "", 64, 1⟩,
   ⟨"bb", "aa", "", "", 1500, 2⟩,
   ⟨"aa", broadcastMAC, "", "", 128, 3⟩]

/-- Witness for attribute_counters_from_trace at scenario A, device A. -/
theorem attribute_counters_from_trace_witness :
    ("aa" ≠ "" ∧ "aa" ≠ broadcastMAC)
    ∧ (bytesSentOf (applyFrames [] scenarioA) "aa" = sentBytes "aa" scenarioA % U64
       ∧ packetsSentOf (applyFrames [] scenarioA) "aa" = sentCount "aa" scenarioA % U64
       ∧ bytesRecvOf (applyFrames [] scenarioA) "aa" = recvBytes "aa" scenarioA % U64
       ∧ packetsRecvOf (applyFrames [] scenarioA) "aa" = recvCount "aa" scenarioA % U64) :=
  ⟨by decide, attribute_counters_from_trace scenarioA "aa" (by decide)⟩

/-- Concrete check of scenario A: device A has bytesSent 192 (64 + 128),
packetsSent 2, bytesRecv 1500, packetsRecv 1; device B has bytesSent
1500, packetsSent 1, bytesRecv 64, packetsRecv 1; the broadcast address
is absent from the registry. -/
theorem scenarioA_values :
    bytesSentOf (applyFrames [] scenarioA) "aa" = 192
    ∧ packetsSentOf (applyFrames [] scenarioA) "aa" = 2
    ∧ bytesRecvOf (applyFrames [] scenarioA) "aa" = 1500
    ∧ packetsRecvOf (applyFrames [] scenarioA) "aa" = 1
    ∧ bytesSentOf (applyFrames [] scenarioA) "bb" = 1500
    ∧ packetsSentOf (applyFrames [] scenarioA) "bb" = 1
    ∧ bytesRecvOf (applyFrames [] scenarioA) "bb" = 64
    ∧ packetsRecvOf (applyFrames [] scenarioA) "bb" = 1
    ∧ getDevice (applyFrames [] scenarioA) broadcastMAC = none := by
  decide

theorem getDevice_updateSide_bcast (devs : List DeviceStats) (mac ip : String)
    (sz now : Nat) (b : Bool)
    (h : getDevice devs broadcastMAC = none) :
    getDevice (updateSide devs mac ip sz now b) broadcastMAC = none := by
  by_cases hg : mac = "" ∨ mac = broadcastMAC
  · unfold updateSide
    rw [if_pos hg]
    exact h
  · rw [getDevice_updateSide_ne devs mac ip sz now b broadcastMAC
      fun hh => hg (Or.inr hh.symm)]
    exact h

theorem getDevice_UpdateStats_bcast (devs : List DeviceStats) (f : Frame)
    (h : getDevice devs broadcastMAC = none) :
    getDevice (UpdateStats devs f) broadcastMAC = none := by
  unfold UpdateStats
  exact getDevice_updateSide_bcast _ _ _ _ _ _
    (getDevice_updateSide_bcast _ _ _ _ _ _ h)

/-- C3. After any finite sequence of UpdateStats calls from the empty
registry, the broadcast hardware address is not a key of the registry:
a side whose MAC is the broadcast address is skipped entirely, so no
record for it is ever created or updated. -/
theorem broadcast_never_in_registry (fs : List Frame) :
    getDevice (applyFrames [] fs) broadcastMAC = none := by
  have main : ∀ (fs : List Frame) (devs : List DeviceStats),
      getDevice devs broadcastMAC = none →
      getDevice (applyFrames devs fs) broadcastMAC = none := by
    intro fs
    induction fs with
    | nil => intro devs h; exact h
    | cons f fs ih =>
      intro devs h
      exact ih (UpdateStats devs f) (getDevice_UpdateStats_bcast devs f h)
  exact main fs [] rfl

/-- firstNonEmpty picks the first non-empty string of a list (empty
string when there is none). -/
def firstNonEmpty : List String → String
  | [] => ""
  | a :: t => if a ≠ "" then a else firstNonEmpty t

/-- suppliedAddrs m fs lists, in call order, the network-layer
addresses supplied for identity m by a call trace: srcIP of the calls
where m is the source MAC, dstIP of the calls where m is the
destination MAC (both, in that order, for a call where m is both). -/
def suppliedAddrs (m : String) : List Frame → List String
  | [] => []
  | f :: fs =>
    ((if f.srcMAC = m then [f.srcIP] else [])
      ++ (if f.dstMAC = m then [f.dstIP] else []))
      ++ suppliedAddrs m fs

theorem firstNonEmpty_glue (l b : List String) :
    firstNonEmpty (firstNonEmpty l :: b) = firstNonEmpty (l ++ b) := by
  induction l with
  | nil => simp [firstNonEmpty]
  | cons a t ih =>
    by_cases h : a = ""
    · subst h
      simp only [List.cons_append]
      rw [show firstNonEmpty ("" :: t) = firstNonEmpty t by simp [firstNonEmpty]]
      rw [show firstNonEmpty ("" :: (t ++ b)) = firstNonEmpty (t ++ b) by
        simp [firstNonEmpty]]
      exact ih
    · simp [firstNonEmpty, h]

theorem ipOf_updateSide_first (devs : List DeviceStats) (mac ip : String)
    (sz now : Nat) (b : Bool) (m : String)
    (hm : ¬ (m = "" ∨ m = broadcastMAC)) :
    ipOf (updateSide devs mac ip sz now b) m
    = firstNonEmpty (ipOf devs m :: (if mac = m then [ip] else [])) := by
  rw [ipOf_updateSide devs mac ip sz now b m hm]
  by_cases hc : mac = m
  · rw [if_pos hc, if_pos hc]
    by_cases hv : ipOf devs m = ""
    · by_cases hip : ip = "" <;> simp [firstNonEmpty, hv, hip]
    · simp [firstNonEmpty, hv]
  · rw [if_neg hc, if_neg hc]
    by_cases hv : ipOf devs m = "" <;> simp [firstNonEmpty, hv]

theorem ipOf_UpdateStats (devs : List DeviceStats) (f : Frame) (m : String)
    (hm : ¬ (m = "" ∨ m = broadcastMAC)) :
    ipOf (UpdateStats devs f) m
    = firstNonEmpty (ipOf devs m ::
        ((if f.srcMAC = m then [f.srcIP] else [])
          ++ (if f.dstMAC = m then [f.dstIP] else []))) := by
  unfold UpdateStats
  rw [ipOf_updateSide_first _ _ _ _ _ _ _ hm,
    ipOf_updateSide_first _ _ _ _ _ _ _ hm, firstNonEmpty_glue,
    ← List.cons_append]

theorem ipOf_applyFrames (fs : List Frame) (devs : List DeviceStats)
    (m : String) (hm : ¬ (m = "" ∨ m = broadcastMAC)) :
    ipOf (applyFrames devs fs) m
    = firstNonEmpty (ipOf devs m :: suppliedAddrs m fs) := by
  induction fs generalizing devs with
  | nil =>
    by_cases hv : ipOf devs m = "" <;>
      simp [applyFrames, suppliedAddrs, firstNonEmpty, hv]
  | cons f fs ih =>
    have hfold : applyFrames devs (f :: fs) = applyFrames (UpdateStats devs f) fs := rfl
    rw [hfold, ih (UpdateStats devs f), ipOf_UpdateStats devs f m hm,
      firstNonEmpty_glue, ← List.cons_append]
    rfl

/-- C6. From the empty registry, the stored address of a non-empty,
non-broadcast identity is always the first non-empty network-layer
address supplied for it: a later different non-empty address never
overwrites it, and a call supplying an empty address leaves it
unchanged. -/
theorem address_first_nonempty_wins (fs : List Frame) (m : String)
    (hm : m ≠ "" ∧ m ≠ broadcastMAC) :
    ipOf (applyFrames [] fs) m = firstNonEmpty (suppliedAddrs m fs) := by
  have hm' : ¬ (m = "" ∨ m = broadcastMAC) := not_or.mpr ⟨hm.1, hm.2⟩
  rw [ipOf_applyFrames fs [] m hm']
  have hz : ipOf ([] : List DeviceStats) m = "" := rfl
  rw [hz]
  simp [firstNonEmpty]

/-- Trace for the address witness: first call supplies no address, the
second supplies 10.0.0.1, the third supplies a different non-empty
address that must not overwrite the stored one. -/
def scenarioIP : List Frame :=
  [⟨"aa", "", "", "", 10, 1⟩,
   ⟨"aa", "", "10.0.0.1", "", 10, 2⟩,
   ⟨"aa", "", "10.0.0.2", "", 10, 3⟩]

/-- Witness for address_first_nonempty_wins on scenarioIP. -/
theorem address_first_nonempty_wins_witness :
    ("aa" ≠ "" ∧ "aa" ≠ broadcastMAC)
    ∧ ipOf (applyFrames [] scenarioIP) "aa"
        = firstNonEmpty (suppliedAddrs "aa" scenarioIP) :=
  ⟨by decide, address_first_nonempty_wins scenarioIP "aa" (by decide)⟩

theorem hostname_updateSide (devs : List DeviceStats) (mac ip : String)
    (sz now : Nat) (b : Bool) (h : ∀ d ∈ devs, d.hostname = "") :
    ∀ d ∈ updateSide devs mac ip sz now b, d.hostname = "" := by
  intro d' hd'
  unfold updateSide at hd'
  split at hd'
  · exact h d' hd'
  · obtain ⟨d, hd, hud⟩ := List.mem_map.mp hd'
    have hdev : d.hostname = "" := by
      split at hd
      · exact h d hd
      · rcases List.mem_append.mp hd with hl | hr
        · exact h d hl
        · rw [List.mem_singleton.mp hr]
          rfl
    rw [← hud]
    split
    · rw [applySide_hostname]
      exact hdev
    · exact hdev

theorem hostname_applyFrames (fs : List Frame) (devs : List DeviceStats)
    (h : ∀ d ∈ devs, d.hostname = "") :
    ∀ d ∈ applyFrames devs fs, d.hostname = "" := by
  induction fs generalizing devs with
  | nil => exact h
  | cons f fs ih =>
    exact ih (UpdateStats devs f)
      (hostname_updateSide _ _ _ _ _ _ (hostname_updateSide _ _ _ _ _ _ h))

/-- C10. No operation ever assigns the Hostname field: every record in
any reachable registry, every device entry of any snapshot of it, and
every successful lookup result carries hostname = "". -/
theorem hostname_always_empty (fs : List Frame) (now : Nat) (mac : String) :
    ((applyFrames [] fs).all fun d => d.hostname == "")
    ∧ ((GetNetworkStats (applyFrames [] fs) now).devices.all
        fun d => d.hostname == "")
    ∧ ((getDevice (applyFrames [] fs) mac).all fun d => d.hostname == "") := by
  have hreg : ∀ d ∈ applyFrames [] fs, d.hostname = "" :=
    hostname_applyFrames fs [] (by intro d hd; cases hd)
  refine ⟨?_, ?_, ?_⟩
  · rw [List.all_eq_true]
    intro d hd
    simpa using hreg d hd
  · rw [List.all_eq_true]
    intro d hd
    have hmem : d ∈ applyFrames [] fs := by
      have hdev : (GetNetworkStats (applyFrames [] fs) now).devices
          = (applyFrames [] fs).mergeSort
              fun a b => decide (bandKey b ≤ bandKey a) := rfl
      rw [hdev] at hd
      exact List.mem_mergeSort.mp hd
    simpa using hreg d hmem
  · cases hfd : getDevice (applyFrames [] fs) mac with
    | none => rfl
    | some d =>
      have := hreg d (List.mem_of_find?_eq_some hfd)
      simp [Option.all, this]

/-- C9. handleGetDevice returns the looked-up record's value (the JSON
response serializes its fields at call time, so later UpdateStats calls
cannot alter an already produced response) exactly when the identity is
present, and otherwise reports not-found as an ordinary error response
(HTTP 404), never a fatal condition. -/
theorem handleGetDevice_found_or_not (devs : List DeviceStats) (mac : String) :
    (∃ d, getDevice devs mac = some d
      ∧ handleGetDevice devs mac = Except.ok d)
    ∨ (getDevice devs mac = none
      ∧ handleGetDevice devs mac = Except.error "Device not found") := by
  cases hfd : getDevice devs mac with
  | none => exact Or.inr ⟨rfl, by simp [handleGetDevice, hfd]⟩
  | some d => exact Or.inl ⟨d, rfl, by simp [handleGetDevice, hfd]⟩

/-- C5. tryPush on a full queue reports the snapshot as not accepted
and returns the queue unchanged: nothing is evicted, nothing is
inserted, and being a total function it cannot block. -/
theorem tryPush_full_rejects (q : BroadcastQueue) (s : NetworkStats)
    (h : broadcastCapacity ≤ q.items.length) :
    (tryPush q s).1 = false ∧ (tryPush q s).2 = q := by
  unfold tryPush
  rw [if_neg (Nat.not_lt.mpr h)]
  exact ⟨rfl, rfl⟩

/-- A queue holding broadcastCapacity pending snapshots. -/
def fullQueue : BroadcastQueue := ⟨List.replicate 256 (GetNetworkStats [] 0)⟩

set_option maxRecDepth 8000 in
/-- Witness for tryPush_full_rejects on a concrete full queue. -/
theorem tryPush_full_rejects_witness :
    broadcastCapacity ≤ fullQueue.items.length
    ∧ ((tryPush fullQueue (GetNetworkStats [] 0)).1 = false
       ∧ (tryPush fullQueue (GetNetworkStats [] 0)).2 = fullQueue) :=
  ⟨by simp [fullQueue, broadcastCapacity],
   tryPush_full_rejects fullQueue (GetNetworkStats [] 0)
     (by simp [fullQueue, broadcastCapacity])⟩

/-- C7 (failing input). With three subscribers whose second one fails
delivery, broadcastStats reaches the clientsMu.Lock() call while the
same goroutine still holds clientsMu.RLock(): the write acquisition
waits for all readers to release, which never happens, so the round
never completes — the third subscriber does not receive the snapshot
and the failing one is never removed, contradicting the claim (and the
spec) that one failure must not block delivery to the others. -/
theorem broadcastStats_deadlocks_on_failure :
    broadcastStats [⟨0, false⟩, ⟨1, true⟩, ⟨2, false⟩]
      (GetNetworkStats [] 0) = none := by
  rfl

/-- Sanity check of the fan-out model: when no delivery fails, every
subscriber receives the snapshot and the subscriber set is unchanged. -/
theorem broadcastStats_ok_when_no_failure (clients : List Client)
    (stats : NetworkStats) (h : ∀ c ∈ clients, c.fails = false) :
    broadcastStats clients stats
      = some (clients.map fun c => (c.id, stats), clients) := by
  have main : ∀ (rest kept : List Client) (delivered : List (Nat × NetworkStats)),
      (∀ c ∈ rest, c.fails = false) →
      deliverAll stats 1 rest kept delivered
        = some (delivered ++ rest.map fun c => (c.id, stats), kept ++ rest) := by
    intro rest
    induction rest with
    | nil => intro kept delivered _; simp [deliverAll]
    | cons c rest ih =>
      intro kept delivered hok
      have hc : c.fails = false := hok c (List.mem_cons_self c rest)
      rw [deliverAll, if_neg (by rw [hc]; exact Bool.false_ne_true)]
      rw [ih (kept ++ [c]) (delivered ++ [(c.id, stats)])
        fun x hx => hok x (List.mem_cons_of_mem c hx)]
      simp

  unfold broadcastStats
  rw [main clients [] [] h]
  simp

/-- Witness for broadcastStats_ok_when_no_failure on two subscribers. -/
theorem broadcastStats_ok_when_no_failure_witness :
    (∀ c ∈ [Client.mk 0 false, Client.mk 1 false], c.fails = false)
    ∧ broadcastStats [Client.mk 0 false, Client.mk 1 false] (GetNetworkStats [] 0)
      = some ([Client.mk 0 false, Client.mk 1 false].map
          fun c => (c.id, GetNetworkStats [] 0),
        [Client.mk 0 false, Client.mk 1 false]) :=
  ⟨by decide, broadcastStats_ok_when_no_failure _ _ (by decide)⟩

/-- The one-pass accumulation of GetNetworkStats, for accumulators that
are already uint64 values, computes the three sums reduced mod U64. -/
theorem totalsFold (l : List DeviceStats) (a b c : Nat)
    (ha : a < U64) (hb : b < U64) (hc : c < U64) :
    l.foldl
      (fun acc d =>
        ((acc.1 + d.bytesSent) % U64,
         (acc.2.1 + d.bytesRecv) % U64,
         (acc.2.2 + (d.packetsSent + d.packetsRecv) % U64) % U64))
      ((a, b, c) : Nat × Nat × Nat)
    = ((a + (l.map DeviceStats.bytesSent).sum) % U64,
       (b + (l.map DeviceStats.bytesRecv).sum) % U64,
       (c + (l.map fun d => d.packetsSent + d.packetsRecv).sum) % U64) := by
  induction l generalizing a b c with
  | nil =>
    simp [Nat.mod_eq_of_lt ha, Nat.mod_eq_of_lt hb, Nat.mod_eq_of_lt hc]
  | cons d t ih =>
    rw [List.foldl_cons]
    rw [ih ((a + d.bytesSent) % U64) ((b + d.bytesRecv) % U64)
      ((c + (d.packetsSent + d.packetsRecv) % U64) % U64)
      (Nat.mod_lt _ U64_pos) (Nat.mod_lt _ U64_pos) (Nat.mod_lt _ U64_pos)]
    simp only [List.map_cons, List.sum_cons]
    rw [Nat.mod_add_mod, Nat.mod_add_mod, Nat.mod_add_mod]
    simp only [Prod.mk.injEq]
    refine ⟨?_, ?_, ?_⟩
    · rw [Nat.add_assoc]
    · rw [Nat.add_assoc]
    · have h3 : (c + (d.packetsSent + d.packetsRecv) % U64
            + (List.map (fun d => d.packetsSent + d.packetsRecv) t).sum) % U64
          = (c + (d.packetsSent + d.packetsRecv)
            + (List.map (fun d => d.packetsSent + d.packetsRecv) t).sum) % U64 :=
        Nat.ModEq.add_right _ (Nat.ModEq.add_left c (Nat.mod_modEq _ U64))
      rw [h3, Nat.add_assoc]

/-- C2. In every snapshot, totalSent is the sum of bytesSent over the
devices listed in the snapshot, totalRecv the sum of their bytesRecv,
and totalPackets the sum of packetsSent + packetsRecv — all in the
uint64 arithmetic in which the Go code accumulates them (reduced mod
U64). -/
theorem snapshot_totals (devs : List DeviceStats) (now : Nat) :
    (GetNetworkStats devs now).totalSent
      = ((GetNetworkStats devs now).devices.map DeviceStats.bytesSent).sum % U64
    ∧ (GetNetworkStats devs now).totalRecv
      = ((GetNetworkStats devs now).devices.map DeviceStats.bytesRecv).sum % U64
    ∧ (GetNetworkStats devs now).totalPackets
      = ((GetNetworkStats devs now).devices.map
          fun d => d.packetsSent + d.packetsRecv).sum % U64 := by
  have hperm : List.Perm (GetNetworkStats devs now).devices devs :=
    List.mergeSort_perm devs _
  have hsum : ∀ f : DeviceStats → Nat,
      ((GetNetworkStats devs now).devices.map f).sum = (devs.map f).sum :=
    fun f => (hperm.map f).sum_eq
  have hfold := totalsFold devs 0 0 0 U64_pos U64_pos U64_pos
  refine ⟨?_, ?_, ?_⟩
  · have h1 : (GetNetworkStats devs now).totalSent
        = (devs.foldl
            (fun acc d =>
              ((acc.1 + d.bytesSent) % U64,
               (acc.2.1 + d.bytesRecv) % U64,
               (acc.2.2 + (d.packetsSent + d.packetsRecv) % U64) % U64))
            ((0, 0, 0) : Nat × Nat × Nat)).1 := rfl
    rw [h1, hfold]
    simp [hsum]
  · have h2 : (GetNetworkStats devs now).totalRecv
        = (devs.foldl
            (fun acc d =>
              ((acc.1 + d.bytesSent) % U64,
               (acc.2.1 + d.bytesRecv) % U64,
               (acc.2.2 + (d.packetsSent + d.packetsRecv) % U64) % U64))
            ((0, 0, 0) : Nat × Nat × Nat)).2.1 := rfl
    rw [h2, hfold]
    simp [hsum]
  · have h3 : (GetNetworkStats devs now).totalPackets
        = (devs.foldl
            (fun acc d =>
              ((acc.1 + d.bytesSent) % U64,
               (acc.2.1 + d.bytesRecv) % U64,
               (acc.2.2 + (d.packetsSent + d.packetsRecv) % U64) % U64))
            ((0, 0, 0) : Nat × Nat × Nat)).2.2 := rfl
    rw [h3, hfold]
    simp [hsum]

/-- C4. In every snapshot, the devices array is ordered non-increasingly
by the sort key the Go comparator computes: BytesSent + BytesRecv in
uint64 arithmetic (bandKey, the sum reduced mod U64). -/
theorem snapshot_sorted (devs : List DeviceStats) (now : Nat) :
    (GetNetworkStats devs now).devices.Pairwise
      fun a b => bandKey b ≤ bandKey a := by
  have hdev : (GetNetworkStats devs now).devices
      = devs.mergeSort (fun a b => decide (bandKey b ≤ bandKey a)) := rfl
  rw [hdev]
  refine List.Pairwise.imp ?_ (List.sorted_mergeSort ?_ ?_ devs)
  · intro a b h
    exact of_decide_eq_true h
  · intro a b c h1 h2
    rw [decide_eq_true_eq] at h1 h2 ⊢
    exact Nat.le_trans h2 h1
  · intro a b
    rw [Bool.or_eq_true, decide_eq_true_eq, decide_eq_true_eq]
    exact Nat.le_total (bandKey b) (bandKey a)

theorem getD_set_ne (l : List DeviceStats) (i j : Nat) (a d : DeviceStats)
    (h : i ≠ j) : (l.set i a).getD j d = l.getD j d := by
  rw [List.getD_eq_getElem?_getD, List.getD_eq_getElem?_getD,
    List.getElem?_set_ne h]

theorem getD_append_left (l₁ l₂ : List DeviceStats) (n : Nat) (d : DeviceStats)
    (h : n < l₁.length) : (l₁ ++ l₂).getD n d = l₁.getD n d := by
  rw [List.getD_eq_getElem?_getD, List.getD_eq_getElem?_getD,
    List.getElem?_append_left h]

theorem lookupPtr_prop (m : List (String × Nat)) (mac : String) (p : Nat)
    (h : lookupPtr m mac = some p) : ∃ kp ∈ m, kp.2 = p := by
  unfold lookupPtr at h
  cases hf : m.find? (fun kp => kp.1 == mac) with
  | none => rw [hf] at h; cases h
  | some kp =>
    rw [hf] at h
    exact ⟨kp, List.mem_of_find?_eq_some hf, by simpa using h⟩

/-- PtrsAvoid base k s: the registry's pointers all stay outside the
heap segment of indices base, base + 1, ..., base + k - 1 and inside
the allocated heap, and that segment is allocated. Updates of such a
state can never write into the segment. -/
def PtrsAvoid (base k : Nat) (s : MonState) : Prop :=
  base + k ≤ s.heap.length
  ∧ ∀ kp ∈ s.devices, (kp.2 < base ∨ base + k ≤ kp.2) ∧ kp.2 < s.heap.length

theorem updateSideH_avoid (base k : Nat) (s : MonState) (mac ip : String)
    (sz now : Nat) (b : Bool) (h : PtrsAvoid base k s) :
    PtrsAvoid base k (updateSideH s mac ip sz now b)
    ∧ ∀ q, base ≤ q → q < base + k →
        (updateSideH s mac ip sz now b).heap.getD q default
          = s.heap.getD q default := by
  unfold updateSideH
  by_cases hg : mac = "" ∨ mac = broadcastMAC
  · rw [if_pos hg]
    exact ⟨h, fun q _ _ => rfl⟩
  · rw [if_neg hg]
    cases hp : lookupPtr s.devices mac with
    | some p =>
      obtain ⟨kp, hkp, hkp2⟩ := lookupPtr_prop s.devices mac p hp
      have hpp : (p < base ∨ base + k ≤ p) ∧ p < s.heap.length := by
        rw [← hkp2]
        exact h.2 kp hkp
      refine ⟨⟨?_, ?_⟩, ?_⟩
      · simpa using h.1
      · intro kp' hkp'
        have := h.2 kp' hkp'
        simpa using this
      · intro q hq1 hq2
        have hne : p ≠ q := by
          rcases hpp.1 with hl | hr
          · omega
          · omega
        exact getD_set_ne _ _ _ _ _ hne
    | none =>
      refine ⟨⟨?_, ?_⟩, ?_⟩
      · have := h.1
        simp only [List.length_set, List.length_append, List.length_singleton]
        omega
      · intro kp' hkp'
        rcases List.mem_append.mp hkp' with hl | hr
        · have := h.2 kp' hl
          simp only [List.length_set, List.length_append, List.length_singleton]
          omega
        · rw [List.mem_singleton.mp hr]
          have := h.1
          dsimp only
          simp only [List.length_set, List.length_append, List.length_singleton]
          omega
      · intro q hq1 hq2
        have hql : q < s.heap.length := by
          have := h.1
          omega
        have hne : s.heap.length ≠ q := by omega
        rw [getD_set_ne _ _ _ _ _ hne, getD_append_left _ _ _ _ hql]

theorem UpdateStatsH_avoid (base k : Nat) (s : MonState) (f : Frame)
    (h : PtrsAvoid base k s) :
    PtrsAvoid base k (UpdateStatsH s f)
    ∧ ∀ q, base ≤ q → q < base + k →
        (UpdateStatsH s f).heap.getD q default = s.heap.getD q default := by
  unfold UpdateStatsH
  obtain ⟨h1, he1⟩ :=
    updateSideH_avoid base k s f.srcMAC f.srcIP f.packetSize f.now true h
  obtain ⟨h2, he2⟩ := updateSideH_avoid base k
    (updateSideH s f.srcMAC f.srcIP f.packetSize f.now true)
    f.dstMAC f.dstIP f.packetSize f.now false h1
  refine ⟨h2, ?_⟩
  intro q hq1 hq2
  rw [he2 q hq1 hq2, he1 q hq1 hq2]

theorem applyFramesH_avoid (base k : Nat) (fs : List Frame) (s : MonState)
    (h : PtrsAvoid base k s) :
    PtrsAvoid base k (applyFramesH s fs)
    ∧ ∀ q, base ≤ q → q < base + k →
        (applyFramesH s fs).heap.getD q default = s.heap.getD q default := by
  induction fs generalizing s with
  | nil => exact ⟨h, fun q _ _ => rfl⟩
  | cons f fs ih =>
    obtain ⟨h1, he1⟩ := UpdateStatsH_avoid base k s f h
    obtain ⟨h2, he2⟩ := ih (UpdateStatsH s f) h1
    refine ⟨h2, ?_⟩
    intro q hq1 hq2
    have hfold : applyFramesH s (f :: fs) = applyFramesH (UpdateStatsH s f) fs := rfl
    rw [hfold, he2 q hq1 hq2, he1 q hq1 hq2]

/-- Well-formedness of the heap model: every registry pointer points
into the allocated heap. -/
def WFm (s : MonState) : Prop :=
  ∀ kp ∈ s.devices, kp.2 < s.heap.length

theorem WFm_updateSideH (s : MonState) (mac ip : String) (sz now : Nat)
    (b : Bool) (h : WFm s) : WFm (updateSideH s mac ip sz now b) := by
  unfold updateSideH
  by_cases hg : mac = "" ∨ mac = broadcastMAC
  · rw [if_pos hg]
    exact h
  · rw [if_neg hg]
    cases hp : lookupPtr s.devices mac with
    | some p =>
      intro kp hkp
      have := h kp hkp
      simpa using this
    | none =>
      intro kp hkp
      simp only [List.length_set, List.length_append, List.length_singleton]
      rcases List.mem_append.mp hkp with hl | hr
      · have := h kp hl
        omega
      · rw [List.mem_singleton.mp hr]
        dsimp only
        omega

theorem WFm_applyFramesH (fs : List Frame) (s : MonState) (h : WFm s) :
    WFm (applyFramesH s fs) := by
  induction fs generalizing s with
  | nil => exact h
  | cons f fs ih =>
    exact ih (UpdateStatsH s f)
      (WFm_updateSideH _ _ _ _ _ _ (WFm_updateSideH _ _ _ _ _ _ h))

theorem snapshot_unaffected_of_WFm (s : MonState) (hw : WFm s) (now : Nat)
    (fs2 : List Frame) :
    readSnapshotDevices
      (applyFramesH (GetNetworkStatsH s now).2 fs2).heap
      (GetNetworkStatsH s now).1
    = readSnapshotDevices (GetNetworkStatsH s now).2.heap
      (GetNetworkStatsH s now).1 := by
  have hstate : (GetNetworkStatsH s now).2
      = ⟨s.devices, s.heap ++ s.devices.map fun kp => s.heap.getD kp.2 default⟩ :=
    rfl
  have havoid : PtrsAvoid s.heap.length s.devices.length
      (GetNetworkStatsH s now).2 := by
    rw [hstate]
    constructor
    · simp
    · intro kp hkp
      have hlt := hw kp hkp
      constructor
      · exact Or.inl hlt
      · simp
        omega
  obtain ⟨_, heq⟩ := applyFramesH_avoid s.heap.length s.devices.length fs2
    (GetNetworkStatsH s now).2 havoid
  unfold readSnapshotDevices
  apply List.map_congr_left
  intro p hp
  have hbounds : s.heap.length ≤ p ∧ p < s.heap.length + s.devices.length := by
    simp only [GetNetworkStatsH, List.mem_mergeSort, List.mem_map,
      List.mem_range, List.length_map] at hp
    obtain ⟨i, hi, rfl⟩ := hp
    omega
  exact heq p hbounds.1 hbounds.2

/-- C8. A snapshot is a fully-owned copy: reading the device entries of
a snapshot through its pointers yields the same values after any
subsequent sequence of UpdateStats calls as immediately after the
snapshot was taken — the registry's in-place mutations never touch the
snapshot's cells (and the snapshot's aggregate fields are plain values,
unchanged a fortiori). -/
theorem snapshot_immutable (fs1 fs2 : List Frame) (now : Nat) :
    readSnapshotDevices
      (applyFramesH (GetNetworkStatsH (applyFramesH initState fs1) now).2 fs2).heap
      (GetNetworkStatsH (applyFramesH initState fs1) now).1
    = readSnapshotDevices
      (GetNetworkStatsH (applyFramesH initState fs1) now).2.heap
      (GetNetworkStatsH (applyFramesH initState fs1) now).1 :=
  snapshot_unaffected_of_WFm (applyFramesH initState fs1)
    (WFm_applyFramesH fs1 initState (by intro kp hkp; cases hkp)) now fs2
